import Mathlib

/-!
Shallow embedding of `demucs/pretrained.py`.

The module is a concatenation of two historical versions of the file: a
modern catalog-based resolution path (`_parse_remote_files`, `get_model`)
and a legacy fixed-table path (`PRETRAINED_MODELS`, `get_url`,
`load_pretrained`, `_load_state`, `demucs_unittest`, `demucs`, `tasnet`).
Python executes the definitions top to bottom, so the second definition of
`demucs_unittest` (line 179, which downloads weights when `pretrained=True`,
its default) shadows the first one (line 34, which builds an unloaded
`HDemucs`); at call time `get_model` therefore invokes the second one.

Python strings are modelled as Lean `String`; the handful of string
operations the source uses (`str.strip`, `str.startswith`, `str.split` with
a maximum split count, slicing, `str(int)`) are given explicit structurally
recursive models over `String.data` so every definition evaluates inside
the kernel.  Side effects (model construction, quantizer construction,
network fetches, state application, quantizer detach) are recorded in an
explicit event trace; raised exceptions become `Except.error` values.
-/

/-- One observable side effect of the loading pipeline. -/
inductive Event
  | constructDemucs (channels : Nat)
  | constructHDemucs (channels : Nat)
  | constructTasNet
  | constructQuantizer (groupSize minSize : Nat)
  | fetch (url : String)
  | setState
  | detachQuantizer
deriving DecidableEq, Repr

/-- Exceptions raised by the source: `ValueError`, `KeyError`
(from `PRETRAINED_MODELS[name]`), `ModelLoadingError`, and the
`AssertionError` of the duplicate-signature assert. -/
inductive Err
  | valueError (msg : String)
  | keyError (key : String)
  | loadingError
  | assertionError
deriving DecidableEq, Repr

/-- The model architecture constructed (`Demucs`, `HDemucs`, `ConvTasNet`). -/
inductive Arch
  | demucs (channels : Nat)
  | hdemucs (channels : Nat)
  | tasnet
deriving DecidableEq, Repr

/-- A torch module as this layer observes it: its architecture, whether it
is in training mode (`True` for a freshly constructed module; `eval()`
clears it), whether a persisted state has been applied, and whether
quantizer hooks are currently attached. -/
structure Model where
  arch : Arch
  training : Bool
  loaded : Bool
  hooked : Bool
deriving DecidableEq, Repr

/-- Model of Python `str.strip` restricted to ASCII whitespace:
drop whitespace at both ends. -/
def trimChars (l : List Char) : List Char :=
  ((l.dropWhile Char.isWhitespace).reverse.dropWhile Char.isWhitespace).reverse

/-- Model of Python `str.split(sep)` for a single separator character. -/
def splitOnChar (sep : Char) : List Char → List (List Char)
  | [] => [[]]
  | c :: cs =>
    if c = sep then [] :: splitOnChar sep cs
    else
      match splitOnChar sep cs with
      | [] => [[c]]
      | w :: ws => (c :: w) :: ws

/-- Model of Python `line.split(sep, 1)[0]`: the portion of the line before
the first occurrence of `sep` (the whole line when `sep` is absent). -/
def beforeChar (sep : Char) : List Char → List Char
  | [] => []
  | c :: cs => if c = sep then [] else c :: beforeChar sep cs

/-- Model of Python slicing `s[:n]`. -/
def strTake (s : String) (n : Nat) : String :=
  ⟨s.data.take n⟩

/-- Digit accumulator for `decimalStr`; the fuel argument makes the
recursion structural and is always sufficient at `n + 1`. -/
def digitsAux : Nat → Nat → List Char → List Char
  | 0, _, ds => ds
  | fuel + 1, n, ds =>
    if n < 10 then Nat.digitChar (n % 10) :: ds
    else digitsAux fuel (n / 10) (Nat.digitChar (n % 10) :: ds)

/-- Model of Python `str(n)` for a nonnegative integer: standard decimal
notation. -/
def decimalStr (n : Nat) : String :=
  ⟨digitsAux (n + 1) n []⟩

/-- `ROOT_URL` (line 28). -/
def ROOT_URL : String := "https://dl.fbaipublicfiles.com/demucs/mdx_final/"

/-- `SOURCES` (lines 31 and 106; the second assignment rebinds the same
value). -/
def SOURCES : List String := ["drums", "bass", "other", "vocals"]

/-- Loop body of `_parse_remote_files` (lines 50-62), one stripped line at a
time, carrying the current `root` prefix and the `models` dict (an ordered
association list, as Python dicts preserve insertion order).  The
`assert sig not in models` failure is modelled as `none`. -/
def parseLines : List (List Char) → List Char → List (String × String) →
    Option (List (String × String))
  | [], _, models => some models
  | line :: rest, root, models =>
    if ("#".data).isPrefixOf line then
      parseLines rest root models
    else if ("root:".data).isPrefixOf line then
      parseLines rest (trimChars (line.drop 5)) models
    else
      let sig : String := ⟨beforeChar '-' line⟩
      if (models.lookup sig).isSome then none
      else parseLines rest root (models ++ [(sig, ⟨ROOT_URL.data ++ root ++ line⟩)])

/-- `_parse_remote_files` (lines 48-62), applied to the text of the manifest
file: split on newlines, strip each line, then run the loop. -/
def parse_remote_files (manifest : String) : Option (List (String × String)) :=
  parseLines ((splitOnChar '\n' manifest.data).map trimChars) [] []

/-- `ROOT` (line 94). -/
def ROOT : String := "https://dl.fbaipublicfiles.com/demucs/v3.0/"

/-- `PRETRAINED_MODELS` (lines 96-104). -/
def PRETRAINED_MODELS : List (String × String) :=
  [("demucs", "e07c671f"),
   ("demucs48_hq", "28a1282c"),
   ("demucs_extra", "3646af93"),
   ("demucs_quantized", "07afea75"),
   ("tasnet", "beb46fac"),
   ("tasnet_extra", "df3777b2"),
   ("demucs_unittest", "09ebc15f")]

/-- `get_url` (lines 109-120).  `PRETRAINED_MODELS[name]` raises `KeyError`
on a missing key, modelled as `none`; otherwise the result is pure string
construction: root, name, a literal dash, the first 8 characters of the
signature, and the fixed extension. -/
def get_url (name : String) : Option String :=
  (PRETRAINED_MODELS.lookup name).map
    (fun sig => ROOT ++ name ++ "-" ++ strTake sig 8 ++ ".th")

/-- `_load_state` (lines 163-177): derive the URL (a `KeyError` from the
table lookup propagates), fetch the state dict, apply it with `set_state`,
and when a quantizer was supplied, detach its hooks afterwards. -/
def load_state (name : String) (model : Model) (quantizer : Bool)
    (ev : List Event) : List Event × Except Err Model :=
  match get_url name with
  | none => (ev, Except.error (Err.keyError name))
  | some url =>
    let ev2 := ev ++ [Event.fetch url, Event.setState]
    let loaded : Model := ⟨model.arch, model.training, true, model.hooked⟩
    if quantizer then
      (ev2 ++ [Event.detachQuantizer],
       Except.ok ⟨loaded.arch, loaded.training, loaded.loaded, false⟩)
    else (ev2, Except.ok loaded)

/-- The first `demucs_unittest` (lines 34-36): a fresh `HDemucs` with 4
channels and no weights loaded.  This binding is dead code: the second
definition below rebinds the module-level name before any call happens. -/
def demucs_unittest_v1 : List Event × Except Err Model :=
  ([Event.constructHDemucs 4],
   Except.ok ⟨Arch.hdemucs 4, true, false, false⟩)

/-- The second `demucs_unittest` (lines 179-195), the binding in effect at
call time: a fresh `Demucs` with 4 channels, loading the
`'demucs_unittest'` state when `pretrained` (the default is `True`). -/
def demucs_unittest (pretrained : Bool) : List Event × Except Err Model :=
  let ev := [Event.constructDemucs 4]
  let model : Model := ⟨Arch.demucs 4, true, false, false⟩
  if pretrained then load_state "demucs_unittest" model false ev
  else (ev, Except.ok model)

/-- `demucs` (lines 198-237). -/
def demucs (pretrained extra quantized hq : Bool) (channels : Nat) :
    List Event × Except Err Model :=
  if !pretrained && (extra || quantized || hq) then
    ([], Except.error
      (Err.valueError "if extra or quantized is True, pretrained must be True."))
  else
    let ev := [Event.constructDemucs channels]
    let model : Model := ⟨Arch.demucs channels, true, false, false⟩
    if pretrained then
      let name := if channels ≠ 64 then "demucs" ++ decimalStr channels else "demucs"
      if (cond extra 1 0) + (cond quantized 1 0) + (cond hq 1 0) > 1 then
        (ev, Except.error
          (Err.valueError "Only one of extra, quantized, hq, can be True."))
      else
        let step := if quantized then
            (ev ++ [Event.constructQuantizer 8 1],
             (⟨model.arch, model.training, model.loaded, true⟩ : Model),
             name ++ "_quantized")
          else (ev, model, name)
        let name2 := if extra then step.2.2 ++ "_extra" else step.2.2
        let name3 := if hq then name2 ++ "_hq" else name2
        load_state name3 step.2.1 quantized step.1
    else (ev, Except.ok model)

/-- `tasnet` (lines 240-265). -/
def tasnet (pretrained extra : Bool) : List Event × Except Err Model :=
  if !pretrained && extra then
    ([], Except.error
      (Err.valueError "if extra is True, pretrained must be True."))
  else
    let ev := [Event.constructTasNet]
    let model : Model := ⟨Arch.tasnet, true, false, false⟩
    if pretrained then
      let name := if extra then "tasnet_extra" else "tasnet"
      load_state name model false ev
    else (ev, Except.ok model)

/-- `load_pretrained` (lines 135-160): dispatch over the closed name set,
raising `ValueError` on anything else. -/
def load_pretrained (name : String) : List Event × Except Err Model :=
  if name = "demucs" then demucs true false false false 64
  else if name = "demucs48_hq" then demucs true false false true 48
  else if name = "demucs_extra" then demucs true true false false 64
  else if name = "demucs_quantized" then demucs true false true false 64
  else if name = "demucs_unittest" then demucs_unittest true
  else if name = "tasnet" then tasnet true false
  else if name = "tasnet_extra" then tasnet true true
  else ([], Except.error (Err.valueError ("Invalid pretrained name " ++ name)))

/-- `get_model` (lines 64-84).  The fast path for `'demucs_unittest'`
returns before any repository is built and before the `model.eval()` call;
as executed it invokes the second `demucs_unittest` with its default
`pretrained=True`.  The repository machinery (`RemoteRepo`, `LocalRepo`,
`BagOnlyRepo`, `AnyModelRepo` from `demucs/repo.py`, declared out of scope
by the specification) is abstracted as a `resolve` oracle from the optional
local repository path and the name to a trace and a model (or a loading
error); the `model.eval()` on line 83 is applied to whatever the oracle
returns. -/
def get_model (resolve : Option String → String → Except Err (List Event × Model))
    (name : String) (repo : Option String) : List Event × Except Err Model :=
  if name = "demucs_unittest" then demucs_unittest true
  else
    match resolve repo name with
    | Except.error e => ([], Except.error e)
    | Except.ok (ev, m) => (ev, Except.ok ⟨m.arch, false, m.loaded, m.hooked⟩)

/-- The closed name set of `load_pretrained`. -/
def validNames : List String :=
  ["demucs", "demucs48_hq", "demucs_extra", "demucs_quantized",
   "tasnet", "tasnet_extra", "demucs_unittest"]

/-- A stripped manifest line that is neither a comment nor a root
directive, i.e. one that produces a catalog entry. -/
def entryLine (l : List Char) : Bool :=
  !(("#".data).isPrefixOf l) && !(("root:".data).isPrefixOf l)

/-- Number of entry lines of a manifest. -/
def entryCount (manifest : String) : Nat :=
  (((splitOnChar '\n' manifest.data).map trimChars).filter entryLine).length

/-- The short-name parts of the entry lines of a stripped line list. -/
def sigsOfLines (lines : List (List Char)) : List String :=
  (lines.filter entryLine).map (fun l => ⟨beforeChar '-' l⟩)

/-- The short-name parts of the entry lines of a manifest. -/
def entrySigs (manifest : String) : List String :=
  sigsOfLines ((splitOnChar '\n' manifest.data).map trimChars)

/-- An oracle that resolves nothing; the `'demucs_unittest'` fast path
never consults it. -/
def resolveNone : Option String → String → Except Err (List Event × Model) :=
  fun _ _ => Except.error Err.loadingError

/-- An oracle returning one fixed, already loaded model, used to exercise
the non-fast-path branch of `get_model` on a concrete input. -/
def resolveConst : Option String → String → Except Err (List Event × Model) :=
  fun _ _ => Except.ok ([Event.fetch "local"], ⟨Arch.tasnet, true, true, false⟩)

/-! ### Helper lemmas -/

theorem data_append (s t : String) : (s ++ t).data = s.data ++ t.data := by
  cases s; cases t; rfl

theorem digitsAux_length (fuel n : Nat) (ds : List Char) :
    ds.length + 1 ≤ (digitsAux (fuel + 1) n ds).length := by
  induction fuel generalizing n ds with
  | zero =>
    rw [digitsAux]
    split
    · simp
    · simp [digitsAux]
  | succ fuel ih =>
    rw [digitsAux]
    split
    · simp
    · have h := ih (n / 10) (Nat.digitChar (n % 10) :: ds)
      simp only [List.length_cons] at h
      omega

theorem decimalStr_length (c : Nat) : 1 ≤ (decimalStr c).data.length :=
  digitsAux_length c c []

theorem digitChar_isDigit : ∀ d < 10, (Nat.digitChar d).isDigit = true := by decide

theorem digitsAux_digits (fuel : Nat) : ∀ (n : Nat) (ds : List Char),
    (∀ ch ∈ ds, ch.isDigit = true) →
    ∀ ch ∈ digitsAux fuel n ds, ch.isDigit = true := by
  induction fuel with
  | zero => intro n ds h; simpa [digitsAux] using h
  | succ fuel ih =>
    intro n ds h ch
    have hds2 : ∀ x ∈ Nat.digitChar (n % 10) :: ds, x.isDigit = true := by
      intro x hx
      rcases List.mem_cons.1 hx with hx | hx
      · subst hx; exact digitChar_isDigit _ (Nat.mod_lt _ (by omega))
      · exact h x hx
    rw [digitsAux]
    split
    · exact fun hm => hds2 ch hm
    · exact fun hm => ih (n / 10) _ hds2 ch hm

theorem decimalStr_digits (c : Nat) :
    ∀ ch ∈ (decimalStr c).data, ch.isDigit = true :=
  digitsAux_digits (c + 1) c [] (by simp)

theorem digitsAux_length_big (fuel n : Nat) (ds : List Char) (hn : 99 < n)
    (hf : n < fuel) : ds.length + 3 ≤ (digitsAux fuel n ds).length := by
  match fuel, hf with
  | f + 1, hf =>
    rw [digitsAux, if_neg (by omega)]
    have h1 : 9 < n / 10 := by omega
    have h2 : n / 10 < f := by omega
    match f, h2 with
    | g + 1, h2 =>
      rw [digitsAux, if_neg (by omega)]
      have h3 : 0 < g := by omega
      match g, h3 with
      | g2 + 1, _ =>
        have h4 := digitsAux_length g2 (n / 10 / 10)
          (Nat.digitChar (n / 10 % 10) :: Nat.digitChar (n % 10) :: ds)
        simp only [List.length_cons] at h4
        omega

theorem decimalStr_eq_48_small : ∀ c < 100, decimalStr c = "48" → c = 48 := by decide

theorem decimalStr_eq_48 (c : Nat) : decimalStr c = "48" ↔ c = 48 := by
  constructor
  · intro h
    have hlt : c < 100 := by
      by_contra hc
      have hbig := digitsAux_length_big (c + 1) c [] (by omega) (by omega)
      have hlen : (digitsAux (c + 1) c []).length = 2 := congrArg String.length h
      simp only [List.length_nil] at hbig
      omega
    exact decimalStr_eq_48_small c hlt h
  · intro h; subst h; decide

theorem lookup_append (l1 l2 : List (String × String)) (k : String) :
    (l1 ++ l2).lookup k =
      match l1.lookup k with
      | some v => some v
      | none => l2.lookup k := by
  induction l1 with
  | nil => simp [List.lookup]
  | cons p t ih =>
    cases hk : (k == p.1) <;> simp [List.lookup, hk, ih]

theorem parseLines_length (lines : List (List Char)) :
    ∀ (root : List Char) (acc m : List (String × String)),
    parseLines lines root acc = some m →
    m.length = acc.length + (lines.filter entryLine).length := by
  induction lines with
  | nil =>
    intro root acc m h
    simp only [parseLines, Option.some.injEq] at h
    subst h
    simp
  | cons l rest ih =>
    intro root acc m h
    rw [parseLines] at h
    by_cases h1 : ("#".data).isPrefixOf l
    · rw [if_pos h1] at h
      have := ih root acc m h
      simp [List.filter, entryLine, h1, this]
    · rw [if_neg h1] at h
      by_cases h2 : ("root:".data).isPrefixOf l
      · rw [if_pos h2] at h
        have := ih (trimChars (l.drop 5)) acc m h
        simp [List.filter, entryLine, h1, h2, this]
      · rw [if_neg h2] at h
        by_cases h3 : ((acc.lookup (⟨beforeChar '-' l⟩ : String)).isSome : Prop)
        · rw [if_pos h3] at h
          exact absurd h (by simp)
        · rw [if_neg h3] at h
          have := ih root _ m h
          simp only [List.length_append, List.length_cons, List.length_nil] at this
          simp [List.filter, entryLine, h1, h2]
          omega

theorem parseLines_nodup (lines : List (List Char)) :
    ∀ (root : List Char) (acc m : List (String × String)),
    parseLines lines root acc = some m →
    (sigsOfLines lines).Nodup ∧ ∀ s ∈ sigsOfLines lines, acc.lookup s = none := by
  induction lines with
  | nil =>
    intro root acc m _
    simp [sigsOfLines]
  | cons l rest ih =>
    intro root acc m h
    rw [parseLines] at h
    by_cases h1 : ("#".data).isPrefixOf l
    · rw [if_pos h1] at h
      have := ih root acc m h
      simpa [sigsOfLines, List.filter, entryLine, h1] using this
    · rw [if_neg h1] at h
      by_cases h2 : ("root:".data).isPrefixOf l
      · rw [if_pos h2] at h
        have := ih (trimChars (l.drop 5)) acc m h
        simpa [sigsOfLines, List.filter, entryLine, h1, h2] using this
      · rw [if_neg h2] at h
        by_cases h3 : ((acc.lookup (⟨beforeChar '-' l⟩ : String)).isSome : Prop)
        · rw [if_pos h3] at h
          exact absurd h (by simp)
        · rw [if_neg h3] at h
          have hacc : acc.lookup (⟨beforeChar '-' l⟩ : String) = none := by
            cases hv : acc.lookup (⟨beforeChar '-' l⟩ : String)
            · rfl
            · exact absurd (by simp [hv]) h3
          obtain ⟨hnd, hrest⟩ := ih root _ m h
          have hsig : sigsOfLines (l :: rest) =
              (⟨beforeChar '-' l⟩ : String) :: sigsOfLines rest := by
            simp [sigsOfLines, List.filter, entryLine, h1, h2]
          rw [hsig]
          constructor
          · rw [List.nodup_cons]
            refine ⟨fun hmem => ?_, hnd⟩
            have := hrest _ hmem
            rw [lookup_append, hacc] at this
            simp [List.lookup] at this
          · intro s hs
            rcases List.mem_cons.1 hs with hs | hs
            · subst hs; exact hacc
            · have := hrest s hs
              rw [lookup_append] at this
              cases hv : acc.lookup s
              · rfl
              · rw [hv] at this; exact absurd this (by simp)

theorem str_ext (a b : String) (h : a.data = b.data) : a = b := by
  cases a; cases b; exact congrArg String.mk h

theorem str_append_assoc (a b c : String) : (a ++ b) ++ c = a ++ (b ++ c) := by
  obtain ⟨ad⟩ := a; obtain ⟨bd⟩ := b; obtain ⟨cd⟩ := c
  exact congrArg String.mk (List.append_assoc ad bd cd)

theorem demucs_append_inj (x y : String) (h : "demucs" ++ x = "demucs" ++ y) :
    x = y := by
  have hd := congrArg String.data h
  rw [data_append, data_append] at hd
  exact str_ext x y (List.append_cancel_left hd)

theorem demucs_append_ne_tasnet (x : String) : "demucs" ++ x ≠ "tasnet" := by
  obtain ⟨xd⟩ := x
  intro h
  have h0 : (some 'd' : Option Char) = some 't' :=
    congrArg (fun (s : String) => s.data.get? 0) h
  exact absurd h0 (by decide)

theorem demucs_append_ne_tasnet_extra (x : String) :
    "demucs" ++ x ≠ "tasnet_extra" := by
  obtain ⟨xd⟩ := x
  intro h
  have h0 : (some 'd' : Option Char) = some 't' :=
    congrArg (fun (s : String) => s.data.get? 0) h
  exact absurd h0 (by decide)

theorem decimal_append_head (c : Nat) (s y : List Char) (hy : y.head? = some '_')
    (h : (decimalStr c).data ++ s = y) : False := by
  have h1 := decimalStr_length c
  cases hd : (decimalStr c).data with
  | nil => rw [hd] at h1; simp at h1
  | cons a t =>
    have ha : a.isDigit = true :=
      decimalStr_digits c a (by rw [hd]; exact List.mem_cons_self a t)
    rw [hd, List.cons_append] at h
    rw [← h] at hy
    simp only [List.head?_cons, Option.some.injEq] at hy
    rw [hy] at ha
    exact absurd ha (by decide)

theorem lookup_PM_isSome (k : String) :
    (PRETRAINED_MODELS.lookup k).isSome = true ↔
      (k = "demucs" ∨ k = "demucs48_hq" ∨ k = "demucs_extra" ∨
       k = "demucs_quantized" ∨ k = "tasnet" ∨ k = "tasnet_extra" ∨
       k = "demucs_unittest") := by
  simp only [PRETRAINED_MODELS, List.lookup]
  cases hb1 : (k == "demucs")
  case true => simp [eq_of_beq hb1]
  case false =>
  have n1 : k ≠ "demucs" := by simpa using hb1
  cases hb2 : (k == "demucs48_hq")
  case true => simp [eq_of_beq hb2]
  case false =>
  have n2 : k ≠ "demucs48_hq" := by simpa using hb2
  cases hb3 : (k == "demucs_extra")
  case true => simp [eq_of_beq hb3]
  case false =>
  have n3 : k ≠ "demucs_extra" := by simpa using hb3
  cases hb4 : (k == "demucs_quantized")
  case true => simp [eq_of_beq hb4]
  case false =>
  have n4 : k ≠ "demucs_quantized" := by simpa using hb4
  cases hb5 : (k == "tasnet")
  case true => simp [eq_of_beq hb5]
  case false =>
  have n5 : k ≠ "tasnet" := by simpa using hb5
  cases hb6 : (k == "tasnet_extra")
  case true => simp [eq_of_beq hb6]
  case false =>
  have n6 : k ≠ "tasnet_extra" := by simpa using hb6
  cases hb7 : (k == "demucs_unittest")
  case true => simp [eq_of_beq hb7]
  case false =>
  have n7 : k ≠ "demucs_unittest" := by simpa using hb7
  simp [n1, n2, n3, n4, n5, n6, n7]

theorem decimal_append_len (c : Nat) (s y : List Char)
    (h : (decimalStr c).data ++ s = y) :
    (decimalStr c).data.length + s.length = y.length := by
  have := congrArg List.length h
  simpa [List.length_append] using this

theorem lookup_PM_base_none (c : Nat) :
    PRETRAINED_MODELS.lookup ("demucs" ++ decimalStr c) = none := by
  cases hv : PRETRAINED_MODELS.lookup ("demucs" ++ decimalStr c) with
  | none => rfl
  | some v =>
    exfalso
    have hs : (PRETRAINED_MODELS.lookup ("demucs" ++ decimalStr c)).isSome = true := by
      rw [hv]; rfl
    rw [lookup_PM_isSome] at hs
    have hlen := decimalStr_length c
    rcases hs with h | h | h | h | h | h | h
    · have h2 : decimalStr c = "" :=
        demucs_append_inj _ _ (h.trans (show ("demucs" : String) = "demucs" ++ "" from rfl))
      rw [h2] at hlen
      simp at hlen
    · have h2 : decimalStr c = "48_hq" :=
        demucs_append_inj _ _
          (h.trans (show ("demucs48_hq" : String) = "demucs" ++ "48_hq" from rfl))
      have hm : '_' ∈ (decimalStr c).data := by rw [h2]; decide
      exact absurd (decimalStr_digits c '_' hm) (by decide)
    · have h2 : decimalStr c = "_extra" :=
        demucs_append_inj _ _
          (h.trans (show ("demucs_extra" : String) = "demucs" ++ "_extra" from rfl))
      exact decimal_append_head c [] ("_extra".data) (by decide)
        (by simpa using congrArg String.data h2)
    · have h2 : decimalStr c = "_quantized" :=
        demucs_append_inj _ _
          (h.trans (show ("demucs_quantized" : String) = "demucs" ++ "_quantized" from rfl))
      exact decimal_append_head c [] ("_quantized".data) (by decide)
        (by simpa using congrArg String.data h2)
    · exact demucs_append_ne_tasnet _ h
    · exact demucs_append_ne_tasnet_extra _ h
    · have h2 : decimalStr c = "_unittest" :=
        demucs_append_inj _ _
          (h.trans (show ("demucs_unittest" : String) = "demucs" ++ "_unittest" from rfl))
      exact decimal_append_head c [] ("_unittest".data) (by decide)
        (by simpa using congrArg String.data h2)

theorem lookup_PM_extra_none (c : Nat) :
    PRETRAINED_MODELS.lookup ("demucs" ++ decimalStr c ++ "_extra") = none := by
  cases hv : PRETRAINED_MODELS.lookup ("demucs" ++ decimalStr c ++ "_extra") with
  | none => rfl
  | some v =>
    exfalso
    have hs : (PRETRAINED_MODELS.lookup
        ("demucs" ++ decimalStr c ++ "_extra")).isSome = true := by rw [hv]; rfl
    rw [lookup_PM_isSome, str_append_assoc] at hs
    have hlen := decimalStr_length c
    rcases hs with h | h | h | h | h | h | h
    · have h2 : decimalStr c ++ "_extra" = "" :=
        demucs_append_inj _ _ (h.trans (show ("demucs" : String) = "demucs" ++ "" from rfl))
      have hd := congrArg String.data h2
      rw [data_append] at hd
      have hl := decimal_append_len c _ _ hd
      rw [(show ("_extra".data).length = 6 by decide),
          (show (("" : String).data).length = 0 by decide)] at hl
      omega
    · have h2 : decimalStr c ++ "_extra" = "48_hq" :=
        demucs_append_inj _ _
          (h.trans (show ("demucs48_hq" : String) = "demucs" ++ "48_hq" from rfl))
      have hd := congrArg String.data h2
      rw [data_append] at hd
      have hl := decimal_append_len c _ _ hd
      rw [(show ("_extra".data).length = 6 by decide),
          (show (("48_hq" : String).data).length = 5 by decide)] at hl
      omega
    · have h2 : decimalStr c ++ "_extra" = "_extra" :=
        demucs_append_inj _ _
          (h.trans (show ("demucs_extra" : String) = "demucs" ++ "_extra" from rfl))
      have hd := congrArg String.data h2
      rw [data_append] at hd
      exact decimal_append_head c _ _ (by decide) hd
    · have h2 : decimalStr c ++ "_extra" = "_quantized" :=
        demucs_append_inj _ _
          (h.trans (show ("demucs_quantized" : String) = "demucs" ++ "_quantized" from rfl))
      have hd := congrArg String.data h2
      rw [data_append] at hd
      exact decimal_append_head c _ _ (by decide) hd
    · exact demucs_append_ne_tasnet _ h
    · exact demucs_append_ne_tasnet_extra _ h
    · have h2 : decimalStr c ++ "_extra" = "_unittest" :=
        demucs_append_inj _ _
          (h.trans (show ("demucs_unittest" : String) = "demucs" ++ "_unittest" from rfl))
      have hd := congrArg String.data h2
      rw [data_append] at hd
      exact decimal_append_head c _ _ (by decide) hd

theorem lookup_PM_quantized_none (c : Nat) :
    PRETRAINED_MODELS.lookup ("demucs" ++ decimalStr c ++ "_quantized") = none := by
  cases hv : PRETRAINED_MODELS.lookup ("demucs" ++ decimalStr c ++ "_quantized") with
  | none => rfl
  | some v =>
    exfalso
    have hs : (PRETRAINED_MODELS.lookup
        ("demucs" ++ decimalStr c ++ "_quantized")).isSome = true := by rw [hv]; rfl
    rw [lookup_PM_isSome, str_append_assoc] at hs
    have hlen := decimalStr_length c
    rcases hs with h | h | h | h | h | h | h
    · have h2 : decimalStr c ++ "_quantized" = "" :=
        demucs_append_inj _ _ (h.trans (show ("demucs" : String) = "demucs" ++ "" from rfl))
      have hd := congrArg String.data h2
      rw [data_append] at hd
      have hl := decimal_append_len c _ _ hd
      rw [(show ("_quantized".data).length = 10 by decide),
          (show (("" : String).data).length = 0 by decide)] at hl
      omega
    · have h2 : decimalStr c ++ "_quantized" = "48_hq" :=
        demucs_append_inj _ _
          (h.trans (show ("demucs48_hq" : String) = "demucs" ++ "48_hq" from rfl))
      have hd := congrArg String.data h2
      rw [data_append] at hd
      have hl := decimal_append_len c _ _ hd
      rw [(show ("_quantized".data).length = 10 by decide),
          (show (("48_hq" : String).data).length = 5 by decide)] at hl
      omega
    · have h2 : decimalStr c ++ "_quantized" = "_extra" :=
        demucs_append_inj _ _
          (h.trans (show ("demucs_extra" : String) = "demucs" ++ "_extra" from rfl))
      have hd := congrArg String.data h2
      rw [data_append] at hd
      exact decimal_append_head c _ _ (by decide) hd
    · have h2 : decimalStr c ++ "_quantized" = "_quantized" :=
        demucs_append_inj _ _
          (h.trans (show ("demucs_quantized" : String) = "demucs" ++ "_quantized" from rfl))
      have hd := congrArg String.data h2
      rw [data_append] at hd
      exact decimal_append_head c _ _ (by decide) hd
    · exact demucs_append_ne_tasnet _ h
    · exact demucs_append_ne_tasnet_extra _ h
    · have h2 : decimalStr c ++ "_quantized" = "_unittest" :=
        demucs_append_inj _ _
          (h.trans (show ("demucs_unittest" : String) = "demucs" ++ "_unittest" from rfl))
      have hd := congrArg String.data h2
      rw [data_append] at hd
      exact decimal_append_head c _ _ (by decide) hd

theorem lookup_PM_hq_iff (c : Nat) :
    (PRETRAINED_MODELS.lookup ("demucs" ++ decimalStr c ++ "_hq")).isSome = true ↔
      c = 48 := by
  constructor
  · intro hs
    rw [lookup_PM_isSome, str_append_assoc] at hs
    have hlen := decimalStr_length c
    rcases hs with h | h | h | h | h | h | h
    · exfalso
      have h2 : decimalStr c ++ "_hq" = "" :=
        demucs_append_inj _ _ (h.trans (show ("demucs" : String) = "demucs" ++ "" from rfl))
      have hd := congrArg String.data h2
      rw [data_append] at hd
      have hl := decimal_append_len c _ _ hd
      rw [(show ("_hq".data).length = 3 by decide),
          (show (("" : String).data).length = 0 by decide)] at hl
      omega
    · have h2 : decimalStr c ++ "_hq" = "48_hq" :=
        demucs_append_inj _ _
          (h.trans (show ("demucs48_hq" : String) = "demucs" ++ "48_hq" from rfl))
      have hd := congrArg String.data h2
      rw [data_append, (show ("48_hq" : String).data = "48".data ++ "_hq".data by decide)]
        at hd
      have h48 : decimalStr c = "48" := str_ext _ _ (List.append_cancel_right hd)
      exact (decimalStr_eq_48 c).mp h48
    · exfalso
      have h2 : decimalStr c ++ "_hq" = "_extra" :=
        demucs_append_inj _ _
          (h.trans (show ("demucs_extra" : String) = "demucs" ++ "_extra" from rfl))
      have hd := congrArg String.data h2
      rw [data_append] at hd
      exact decimal_append_head c _ _ (by decide) hd
    · exfalso
      have h2 : decimalStr c ++ "_hq" = "_quantized" :=
        demucs_append_inj _ _
          (h.trans (show ("demucs_quantized" : String) = "demucs" ++ "_quantized" from rfl))
      have hd := congrArg String.data h2
      rw [data_append] at hd
      exact decimal_append_head c _ _ (by decide) hd
    · exact absurd h (demucs_append_ne_tasnet _)
    · exact absurd h (demucs_append_ne_tasnet_extra _)
    · exfalso
      have h2 : decimalStr c ++ "_hq" = "_unittest" :=
        demucs_append_inj _ _
          (h.trans (show ("demucs_unittest" : String) = "demucs" ++ "_unittest" from rfl))
      have hd := congrArg String.data h2
      rw [data_append] at hd
      exact decimal_append_head c _ _ (by decide) hd
  · intro h
    subst h
    decide

theorem demucs_nondefault_channels (c : Nat) (h : c ≠ 64) :
    demucs true false false false c =
      ([Event.constructDemucs c],
       Except.error (Err.keyError ("demucs" ++ decimalStr c))) := by
  have hn := lookup_PM_base_none c
  simp [demucs, load_state, get_url, h, hn]

/-! ### Claim theorems -/

/-- C1: the claim states that `get_model("demucs_unittest", repo)` returns a
freshly constructed fixed-architecture model with no weights loaded and no
network or catalog access.  The code as executed does not: the second
definition of `demucs_unittest` (line 179) shadows the fast path's intended
target (line 34), so the fast path calls it with its default
`pretrained=True` and the call constructs a `Demucs` (not the fixed
`HDemucs`), fetches the `demucs_unittest` weights from the network and
returns a weight-loaded model.  This theorem evaluates the code at the
failing input and exhibits the fetch event and the loaded state. -/
theorem get_model_unittest_downloads :
    get_model resolveNone "demucs_unittest" none =
      ([Event.constructDemucs 4,
        Event.fetch "https://dl.fbaipublicfiles.com/demucs/v3.0/demucs_unittest-09ebc15f.th",
        Event.setState],
       Except.ok ⟨Arch.demucs 4, true, true, false⟩) := rfl

/-- C2 counterexample: at `name = "demucs_unittest"` (any repo) `get_model`
returns a model whose `training` flag is still `true` — the fast path
returns before the `model.eval()` call on line 83, so the returned model has
not been switched into evaluation mode, refuting the claim for that name. -/
theorem get_model_unittest_training_mode :
    (get_model resolveNone "demucs_unittest" none).2 =
      Except.ok ⟨Arch.demucs 4, true, true, false⟩ ∧
    (⟨Arch.demucs 4, true, true, false⟩ : Model).training = true :=
  ⟨rfl, rfl⟩

/-- C2 (amended): for every name other than `"demucs_unittest"`, any repo
argument and any outcome of repository resolution, if `get_model` returns a
model then that model has been switched into evaluation mode
(`training = false`) before being handed to the caller; the
`"demucs_unittest"` fast path instead returns its model still in training
mode. -/
theorem get_model_eval_after_resolution
    (resolve : Option String → String → Except Err (List Event × Model))
    (repo : Option String) (name : String) (ev : List Event) (m : Model)
    (hname : name ≠ "demucs_unittest")
    (h : get_model resolve name repo = (ev, Except.ok m)) : m.training = false := by
  rw [get_model, if_neg hname] at h
  cases hres : resolve repo name with
  | error e => rw [hres] at h; simp at h
  | ok p =>
    obtain ⟨ev2, m2⟩ := p
    rw [hres] at h
    simp at h
    obtain ⟨-, h2⟩ := h
    rw [← h2]

/-- C2 witness: a concrete resolution through `get_model` returns an
evaluation-mode model. -/
theorem get_model_eval_after_resolution_witness :
    (⟨Arch.tasnet, false, true, false⟩ : Model).training = false :=
  get_model_eval_after_resolution resolveConst none "mdx" [Event.fetch "local"]
    ⟨Arch.tasnet, false, true, false⟩ (by decide) rfl

/-- C3: catalog parsing processes the manifest line by line with comment
skipping, `root:` prefix directives, and first-dash-keyed entries.  First
conjunct: the manifest `"root: mdx/\nabcd1234-v1.th\n"` maps the short name
`"abcd1234"` to `ROOT_URL ++ "mdx/abcd1234-v1.th"` (the trailing newline
additionally yields the empty-short-name entry for the final empty line,
which is itself a non-comment, non-root line).  Second conjunct: whenever
parsing succeeds (i.e. all prefixes are unique), the catalog has exactly one
entry per non-comment, non-root line. -/
theorem parse_catalog_entries :
    parse_remote_files "root: mdx/\nabcd1234-v1.th\n" =
      some [("abcd1234", ROOT_URL ++ "mdx/abcd1234-v1.th"), ("", ROOT_URL ++ "mdx/")] ∧
    ∀ manifest m, parse_remote_files manifest = some m →
      m.length = entryCount manifest := by
  constructor
  · decide
  · intro manifest m h
    simp only [parse_remote_files] at h
    have := parseLines_length _ _ _ _ h
    simpa [entryCount] using this

/-- C3 witness: the count property applied to a concrete one-line
manifest. -/
theorem parse_catalog_entries_witness :
    ([("a", ROOT_URL ++ "a-1.th")] : List (String × String)).length =
      entryCount "a-1.th" :=
  parse_catalog_entries.2 "a-1.th" [("a", ROOT_URL ++ "a-1.th")] (by decide)

/-- C4: for every name present in the legacy table with signature `sig`,
`get_url` performs no effect (its type is pure) and returns exactly the
fixed root, the name, the literal `"-"`, the first 8 characters of `sig`
(shorter signatures would be silently truncated by the slice, not
rejected), and the fixed `".th"` extension; `get_url` takes no channel
count, so the result is independent of it. -/
theorem get_url_pure_construction (name sig : String)
    (h : PRETRAINED_MODELS.lookup name = some sig) :
    get_url name = some (ROOT ++ name ++ "-" ++ strTake sig 8 ++ ".th") := by
  simp [get_url, h]

/-- C4 witness: the URL of the `"demucs"` entry. -/
theorem get_url_pure_construction_witness :
    get_url "demucs" = some (ROOT ++ "demucs" ++ "-" ++ strTake "e07c671f" 8 ++ ".th") :=
  get_url_pure_construction "demucs" "e07c671f" (by decide)

/-- C5 counterexample: with `pretrained=True` and two of the flags set
(`quantized=True, hq=True`), the call does raise the `ValueError`, but a
model construction side effect has already occurred when it does: line 221
constructs the `Demucs` model before the flag-combination check on line 227,
so `Event.constructDemucs` is in the trace, refuting "before any model
construction side effect occurs". -/
theorem demucs_conflict_constructs_model :
    (demucs true false true true 64).2 =
      Except.error (Err.valueError "Only one of extra, quantized, hq, can be True.") ∧
    Event.constructDemucs 64 ∈ (demucs true false true true 64).1 :=
  ⟨rfl, by decide⟩

/-- C5 (amended): for every call with `pretrained=True` and at least two of
`extra`, `quantized`, `hq` set, the call raises `ValueError`; the error is
raised after the base model construction side effect but before any
quantizer construction, network access or state load — the trace contains
exactly the model construction event. -/
theorem demucs_conflict_raises_after_construction (extra quantized hq : Bool)
    (channels : Nat)
    (h : 1 < (cond extra 1 0) + (cond quantized 1 0) + (cond hq 1 0)) :
    demucs true extra quantized hq channels =
      ([Event.constructDemucs channels],
       Except.error (Err.valueError "Only one of extra, quantized, hq, can be True.")) := by
  cases extra <;> cases quantized <;> cases hq <;>
    first
    | exact absurd h (by decide)
    | rfl

/-- C5 witness: `extra=True, quantized=True` at the default channel
count. -/
theorem demucs_conflict_raises_after_construction_witness :
    demucs true true true false 64 =
      ([Event.constructDemucs 64],
       Except.error (Err.valueError "Only one of extra, quantized, hq, can be True.")) :=
  demucs_conflict_raises_after_construction true true false 64 (by decide)

/-- C6: `demucs(pretrained=False, ...)` with any of `extra`, `quantized`,
`hq` set raises `ValueError` with an empty trace — no model construction, no
network access, no state load — and so does
`tasnet(pretrained=False, extra=True)`. -/
theorem unpretrained_option_raises_without_network
    (extra quantized hq : Bool) (channels : Nat)
    (h : (extra || quantized || hq) = true) :
    demucs false extra quantized hq channels =
      ([], Except.error
        (Err.valueError "if extra or quantized is True, pretrained must be True.")) ∧
    tasnet false true =
      ([], Except.error
        (Err.valueError "if extra is True, pretrained must be True.")) := by
  refine ⟨?_, rfl⟩
  cases extra <;> cases quantized <;> cases hq <;>
    first
    | exact absurd h (by decide)
    | rfl

/-- C6 witness: `demucs(pretrained=False, extra=True)`. -/
theorem unpretrained_option_raises_without_network_witness :
    demucs false true false false 64 =
      ([], Except.error
        (Err.valueError "if extra or quantized is True, pretrained must be True.")) ∧
    tasnet false true =
      ([], Except.error
        (Err.valueError "if extra is True, pretrained must be True.")) :=
  unpretrained_option_raises_without_network true false false 64 (by decide)

/-- C7: whenever some short-name prefix occurs on two distinct entry lines
of the manifest, catalog parsing fails (the `assert sig not in models`
fires) instead of returning a mapping — it never silently overwrites or
keeps the first entry. -/
theorem parse_duplicate_prefix_fails (manifest : String)
    (h : ¬ (entrySigs manifest).Nodup) : parse_remote_files manifest = none := by
  cases hp : parse_remote_files manifest with
  | none => rfl
  | some m =>
    exfalso
    simp only [parse_remote_files] at hp
    exact h ((parseLines_nodup _ _ _ _ hp).1)

/-- C7 witness: a manifest with the duplicated prefix `"a"`. -/
theorem parse_duplicate_prefix_fails_witness :
    parse_remote_files "a-1.th\na-2.th" = none :=
  parse_duplicate_prefix_fails "a-1.th\na-2.th" (by decide)

/-- C8: `demucs(pretrained=True, quantized=True)` (other flags default)
constructs the quantization codec around the model with the fixed,
non-user-configurable parameters `group_size=8, min_size=1` before the
state load (the `constructQuantizer 8 1` event precedes the `fetch` and
`setState` events), detaches the quantizer's runtime hooks after the state
is applied (`detachQuantizer` follows `setState`), and the returned model
carries no quantization hooks (`hooked = false`). -/
theorem demucs_quantized_codec_lifecycle :
    demucs true false true false 64 =
      ([Event.constructDemucs 64, Event.constructQuantizer 8 1,
        Event.fetch "https://dl.fbaipublicfiles.com/demucs/v3.0/demucs_quantized-07afea75.th",
        Event.setState, Event.detachQuantizer],
       Except.ok ⟨Arch.demucs 64, true, true, false⟩) := rfl

/-- C9: `load_pretrained` looks its argument up in the closed seven-name
set and dispatches to exactly one builder for each member; any other name
yields `ValueError` with an empty trace — no builder is invoked. -/
theorem load_pretrained_closed_dispatch (name : String) :
    (name ∉ validNames →
      load_pretrained name =
        ([], Except.error (Err.valueError ("Invalid pretrained name " ++ name)))) ∧
    (name = "demucs" → load_pretrained name = demucs true false false false 64) ∧
    (name = "demucs48_hq" → load_pretrained name = demucs true false false true 48) ∧
    (name = "demucs_extra" → load_pretrained name = demucs true true false false 64) ∧
    (name = "demucs_quantized" → load_pretrained name = demucs true false true false 64) ∧
    (name = "demucs_unittest" → load_pretrained name = demucs_unittest true) ∧
    (name = "tasnet" → load_pretrained name = tasnet true false) ∧
    (name = "tasnet_extra" → load_pretrained name = tasnet true true) := by
  refine ⟨?_, ?_, ?_, ?_, ?_, ?_, ?_, ?_⟩ <;> intro h
  · simp only [validNames, List.mem_cons, List.not_mem_nil, or_false] at h
    push_neg at h
    obtain ⟨n1, n2, n3, n4, n5, n6, n7⟩ := h
    simp [load_pretrained, n1, n2, n3, n4, n5, n6, n7]
  all_goals subst h; rfl

/-- C9 witness: one member of the set and one name outside it. -/
theorem load_pretrained_closed_dispatch_witness :
    load_pretrained "tasnet" = tasnet true false ∧
    load_pretrained "mdx_extra_q" =
      ([], Except.error (Err.valueError ("Invalid pretrained name " ++ "mdx_extra_q"))) :=
  ⟨(load_pretrained_closed_dispatch "tasnet").2.2.2.2.2.2.1 rfl,
   (load_pretrained_closed_dispatch "mdx_extra_q").1 (by decide)⟩

/-- C10: for every channel count `c ≠ 64` with all option flags off,
`demucs(pretrained=True, channels=c)` derives the artifact name
`"demucs" ++ str(c)`, which is not a key of the legacy table, so the URL
lookup raises `KeyError` with no fetch attempted (the trace holds only the
model construction); and among non-default channel counts the `_extra` and
`_quantized` derived names are never in the table, while the `_hq` derived
name is in the table exactly when `c = 48` (`"demucs48_hq"`). -/
theorem demucs_channels_unknown_key (c : Nat) (h : c ≠ 64) :
    demucs true false false false c =
      ([Event.constructDemucs c],
       Except.error (Err.keyError ("demucs" ++ decimalStr c))) ∧
    PRETRAINED_MODELS.lookup ("demucs" ++ decimalStr c ++ "_extra") = none ∧
    PRETRAINED_MODELS.lookup ("demucs" ++ decimalStr c ++ "_quantized") = none ∧
    ((PRETRAINED_MODELS.lookup ("demucs" ++ decimalStr c ++ "_hq")).isSome = true ↔
      c = 48) :=
  ⟨demucs_nondefault_channels c h, lookup_PM_extra_none c,
   lookup_PM_quantized_none c, lookup_PM_hq_iff c⟩

/-- C10 witness: channel count 32. -/
theorem demucs_channels_unknown_key_witness :
    demucs true false false false 32 =
      ([Event.constructDemucs 32],
       Except.error (Err.keyError ("demucs" ++ decimalStr 32))) ∧
    PRETRAINED_MODELS.lookup ("demucs" ++ decimalStr 32 ++ "_extra") = none ∧
    PRETRAINED_MODELS.lookup ("demucs" ++ decimalStr 32 ++ "_quantized") = none ∧
    ((PRETRAINED_MODELS.lookup ("demucs" ++ decimalStr 32 ++ "_hq")).isSome = true ↔
      32 = 48) :=
  demucs_channels_unknown_key 32 (by decide)
